import Mathlib

/-!
Verification of the room-scoped broadcast engine: the patched socket.io
adapter (`src/lib/riugh.ts`), the `BroadcastOperator` with its
acknowledgment-aggregation state machine, and the `RemoteSocket` handle.

JavaScript `Set`s are modelled as insertion-ordered duplicate-free lists,
stateful set objects as references into an explicit store, and callback-driven
code as explicit event traces folded through a step function.
-/

set_option linter.unusedVariables false

/-- A JavaScript `Set` of strings, modelled as its insertion-ordered list of
distinct elements. -/
abbrev JSSet := List String

/-- `Set.prototype.add`: appends only when the element is absent. -/
def JSSet.add (s : JSSet) (x : String) : JSSet :=
  if x ∈ s then s else s ++ [x]

/-- `Set.prototype.size`. -/
def JSSet.size (s : JSSet) : Nat := s.length

/-- `new Set(iterable)`. -/
def JSSet.fromList (xs : List String) : JSSet := xs.foldl JSSet.add []

/-- The reserved delimiter byte between namespace and room in a topic
(`const SEPARATOR = "\x1f"` in `riugh.ts`). -/
def SEPARATOR : String := "\x1f"

/-- One wire frame produced by the external packet codec: either text or
binary (`typeof encodedPacket !== "string"` is the binary test). -/
structure Frame where
  isBinary : Bool
  data : String
deriving DecidableEq, Repr

/-- A logical packet as built by `emit` and stamped by `broadcast`
(`packet.nsp = this.nsp.name`); the payload is opaque to the adapter. -/
structure Packet where
  ptype : Nat
  payload : List String
  nsp : String
deriving DecidableEq, Repr

/-- `BroadcastFlags`; `local` is spelled `localFlag` because `local` is a
Lean keyword. Unset JS fields are the defaults. -/
structure BroadcastFlags where
  volatile : Bool := false
  compress : Bool := false
  localFlag : Bool := false
  timeout : Option Nat := none
  expectSingleResponse : Bool := false
deriving DecidableEq, Repr

/-- The `opts` argument of `Adapter.prototype.broadcast`: the selector. -/
structure BroadcastOptions where
  rooms : JSSet
  except : JSSet
  flags : BroadcastFlags
deriving DecidableEq, Repr

/-- A connection as seen by the `this.apply` loop of the fast path: its id and
its current transport name (`socket.conn.transport.name`). -/
structure ConnSocket where
  id : String
  transportName : String
deriving DecidableEq, Repr

/-- Observable actions of the patched `broadcast`. -/
inductive BroadcastEffect where
  /-- `app.publish(topic, payload, isBinary)`. -/
  | publish (topic : String) (payload : String) (isBinary : Bool)
  /-- `socket.client.writeToEngine(encodedPackets, basePacketOpts)`. -/
  | writeToEngine (sid : String)
  /-- delegation to the original per-connection fan-out (`broadcast.call`). -/
  | genericBroadcast
deriving DecidableEq, Repr

/-- `Adapter.prototype.broadcast` as patched in `patchAdapter`.  `nspName` is
`this.nsp.name`, `encode` the external codec (`this.encoder.encode`), and
`matchingSockets` the connections the external `this.apply(opts, ...)` loop
visits for this selector. -/
def Adapter.broadcast (nspName : String) (encode : Packet → List Frame)
    (matchingSockets : List ConnSocket) (packet : Packet)
    (opts : BroadcastOptions) : List BroadcastEffect :=
  let useFastPublish := opts.rooms.size ≤ 1 ∧ opts.except.size = 0
  if ¬useFastPublish then
    [BroadcastEffect.genericBroadcast]
  else
    let stamped := { packet with nsp := nspName }
    let encodedPackets := encode stamped
    let topic :=
      if opts.rooms.size = 0 then nspName
      else nspName ++ SEPARATOR ++ (opts.rooms.head?.getD "")
    let publishes := encodedPackets.map fun f =>
      BroadcastEffect.publish topic
        (if f.isBinary then f.data else "4" ++ f.data) f.isBinary
    let writes :=
      (matchingSockets.filter fun s => s.transportName ≠ "websocket").map
        fun s => BroadcastEffect.writeToEngine s.id
    publishes ++ writes

/-- Whether an effect is a topic publish. -/
def BroadcastEffect.isPublish : BroadcastEffect → Bool
  | .publish _ _ _ => true
  | _ => false

/-- Number of `app.publish` calls in an effect trace. -/
def countPublish (effs : List BroadcastEffect) : Nat :=
  (effs.filter BroadcastEffect.isPublish).length

/-!
The `BroadcastOperator` keeps its `rooms` and `except` as JS `Set` objects.
To make mutation (or its absence) observable, set objects live in an explicit
store of heap cells; an operator holds references into that store.  A chaining
method that copied-and-extended allocates a fresh cell; a method that mutated
the receiver would write to an existing cell.
-/

/-- The heap of JS `Set` objects; a reference is an index into it. -/
abbrev SetStore := List JSSet

/-- Allocate a fresh `Set` object, returning the extended store and the new
reference. -/
def SetStore.alloc (st : SetStore) (s : JSSet) : SetStore × Nat :=
  (st ++ [s], st.length)

/-- Dereference a `Set` object. -/
def SetStore.deref (st : SetStore) (r : Nat) : JSSet := st.getD r []

/-- The `room: Room | Room[]` argument shape of `to` / `in` / `except`. -/
inductive RoomArg where
  | single (r : String)
  | array (rs : List String)
deriving DecidableEq, Repr

/-- `BroadcastOperator`: references to its two set objects plus its flags
(the flags object is only ever copied via `Object.assign({}, ...)`, so it is
held by value). -/
structure BroadcastOperator where
  roomsRef : Nat
  exceptRef : Nat
  flags : BroadcastFlags
deriving DecidableEq, Repr

/-- The `BroadcastOperator` constructor: allocates its `rooms` and
`exceptRooms` set objects. -/
def BroadcastOperator.make (st : SetStore) (rooms exceptRooms : JSSet)
    (flags : BroadcastFlags) : SetStore × BroadcastOperator :=
  let (st1, r1) := st.alloc rooms
  let (st2, r2) := st1.alloc exceptRooms
  (st2, { roomsRef := r1, exceptRef := r2, flags := flags })

/-- `new BroadcastOperator(adapter)` with the default empty sets and flags. -/
def BroadcastOperator.new (st : SetStore) : SetStore × BroadcastOperator :=
  BroadcastOperator.make st [] [] {}

/-- `BroadcastOperator.prototype.to`: copies the receiver's rooms set
(`const rooms = new Set(this.rooms)`), adds the room(s) to the copy, and
returns a new operator over the fresh set; the receiver's cells are never
written. -/
def BroadcastOperator.to (st : SetStore) (op : BroadcastOperator)
    (room : RoomArg) : SetStore × BroadcastOperator :=
  let rooms :=
    match room with
    | .array rs => rs.foldl JSSet.add (st.deref op.roomsRef)
    | .single r => JSSet.add (st.deref op.roomsRef) r
  let (st', ref) := st.alloc rooms
  (st', { op with roomsRef := ref })

/-- `BroadcastOperator.prototype.in`: an alias for `to`. -/
def BroadcastOperator.in' (st : SetStore) (op : BroadcastOperator)
    (room : RoomArg) : SetStore × BroadcastOperator :=
  BroadcastOperator.to st op room

/-- `BroadcastOperator.prototype.except`: copies the receiver's exclusion set,
adds the room(s) to the copy, and returns a new operator over the fresh set. -/
def BroadcastOperator.except (st : SetStore) (op : BroadcastOperator)
    (room : RoomArg) : SetStore × BroadcastOperator :=
  let exceptRooms :=
    match room with
    | .array rs => rs.foldl JSSet.add (st.deref op.exceptRef)
    | .single r => JSSet.add (st.deref op.exceptRef) r
  let (st', ref) := st.alloc exceptRooms
  (st', { op with exceptRef := ref })

/-- `compress(compress)`: copies the flags (`Object.assign({}, this.flags,
{ compress })`) into a new operator sharing the receiver's set objects. -/
def BroadcastOperator.compress (op : BroadcastOperator) (c : Bool) :
    BroadcastOperator :=
  { op with flags := { op.flags with compress := c } }

/-- The `volatile` getter. -/
def BroadcastOperator.volatile (op : BroadcastOperator) : BroadcastOperator :=
  { op with flags := { op.flags with volatile := true } }

/-- The `local` getter. -/
def BroadcastOperator.localOp (op : BroadcastOperator) : BroadcastOperator :=
  { op with flags := { op.flags with localFlag := true } }

/-- `timeout(timeout)`. -/
def BroadcastOperator.timeout (op : BroadcastOperator) (t : Nat) :
    BroadcastOperator :=
  { op with flags := { op.flags with timeout := some t } }

/-!
Room membership: `this.sids` (connection → rooms) and `this.rooms`
(room → connections) are JS `Map`s from strings to `Set`s, modelled as
insertion-ordered association lists of duplicate-free lists.
-/

/-- Association-list lookup (JS `Map.prototype.get`). -/
def alookup (m : List (String × List String)) (k : String) :
    Option (List String) :=
  match m with
  | [] => none
  | (a, v) :: t => if a = k then some v else alookup t k

/-- Update the entry for `k` through `f`, creating it from the empty set when
absent (the `if (!m.has(k)) m.set(k, new Set()); m.get(k).add(x)` pattern). -/
def mapUpdate (m : List (String × List String)) (k : String)
    (f : List String → List String) : List (String × List String) :=
  match m with
  | [] => [(k, f [])]
  | (a, v) :: t => if a = k then (a, f v) :: t else (a, v) :: mapUpdate t k f

/-- Update the entry for `k` through `f` only when it exists. -/
def mapAdjust (m : List (String × List String)) (k : String)
    (f : List String → List String) : List (String × List String) :=
  match m with
  | [] => []
  | (a, v) :: t => if a = k then (a, f v) :: t else (a, v) :: mapAdjust t k f

/-- Remove the entry for `k` (JS `Map.prototype.delete`). -/
def mapRemove (m : List (String × List String)) (k : String) :
    List (String × List String) :=
  m.filter fun p => decide (p.1 ≠ k)

/-- Membership state of one namespace's adapter. -/
structure AdapterState where
  sids : List (String × List String)
  rooms : List (String × List String)
deriving DecidableEq, Repr

/-- Modelled from the spec: the original `Adapter.prototype.addAll` of the
external `socket.io-adapter` dependency, captured at the top of
`patchAdapter` and not part of the provided sources.  Per the spec it "adds
`connectionId` to each room in `rooms` (idempotent — already-present rooms are
no-ops for membership ...)" and "a connection's membership record is created
on first `addAll` call". -/
def baseAddAll (st : AdapterState) (id : String) (rooms : List String) :
    AdapterState :=
  let sids0 := if (alookup st.sids id).isSome then st.sids
               else st.sids ++ [(id, [])]
  rooms.foldl
    (fun acc room =>
      { sids := mapUpdate acc.sids id (fun s => JSSet.add s room),
        rooms := mapUpdate acc.rooms room (fun s => JSSet.add s id) })
    { st with sids := sids0 }

/-- Modelled from the spec: the original `Adapter.prototype.del`, also not
part of the provided sources, which "removes the connection from `room`'s
membership set"; a room left with zero connections is logically absent, so
its entry is dropped. -/
def baseDel (st : AdapterState) (id room : String) : AdapterState :=
  let sids := mapAdjust st.sids id (fun s => s.erase room)
  let rooms :=
    match alookup st.rooms room with
    | none => st.rooms
    | some members =>
      if id ∈ members then
        let members' := members.erase id
        if members' = [] then mapRemove st.rooms room
        else mapAdjust st.rooms room (fun _ => members')
      else st.rooms
  { sids := sids, rooms := rooms }

/-- The namespace as the patched adapter sees it: its name and the ids that
have a live socket object in `this.nsp.sockets`. -/
structure NspState where
  name : String
  sockets : List String
deriving DecidableEq, Repr

/-- Observable actions of the patched `addAll` / `del`. -/
inductive AdapterEffect where
  /-- `websocket.subscribe(topic)`. -/
  | subscribe (topic : String)
  /-- `websocket.unsubscribe(topic)`. -/
  | unsubscribe (topic : String)
  /-- `LoggingService.logConnection(namespaceName, socketId)`. -/
  | logConnection (nsp : String) (sid : String)
deriving DecidableEq, Repr

/-- `Adapter.prototype.addAll` as patched in `patchAdapter`: records
membership via the base `addAll`, then — only when the id has a live socket —
subscribes the transport (namespace topic first when the connection is new,
then each derived room topic; the uWebSockets and ws handlers subscribe
identically) and finally, when new, notifies the connection logger. -/
def Adapter.addAll (nsp : NspState) (st : AdapterState) (id : String)
    (rooms : List String) : AdapterState × List AdapterEffect :=
  let isNew := (alookup st.sids id).isNone
  let st' := baseAddAll st id rooms
  if nsp.sockets.contains id then
    (st',
      (if isNew then [AdapterEffect.subscribe nsp.name] else [])
        ++ rooms.map (fun room =>
            AdapterEffect.subscribe (nsp.name ++ SEPARATOR ++ room))
        ++ (if isNew then [AdapterEffect.logConnection nsp.name id] else []))
  else (st', [])

/-- `Adapter.prototype.del` as patched: removes membership via the base
`del`, then — only when the id has a live socket — unsubscribes the transport
from the single derived topic. -/
def Adapter.del (nsp : NspState) (st : AdapterState) (id room : String) :
    AdapterState × List AdapterEffect :=
  let st' := baseDel st id room
  if nsp.sockets.contains id then
    (st', [AdapterEffect.unsubscribe (nsp.name ++ SEPARATOR ++ room)])
  else (st', [])

/-- The rooms a connection is currently in. -/
def connRooms (st : AdapterState) (id : String) : List String :=
  (alookup st.sids id).getD []

/-- The members of a room. -/
def roomMembers (st : AdapterState) (room : String) : List String :=
  (alookup st.rooms room).getD []


/-!
Acknowledgment aggregation: an ack-seeking `emit` closes over mutable locals
(`timedOut`, `expectedServerCount`, `actualServerCount`, `expectedClientCount`,
`responses`) and reacts to four kinds of asynchronous events.  The machine is
the exact content of the closures in `BroadcastOperator.prototype.emit`; runs
are explicit event interleavings folded through one step function.
-/

/-- Modelled from the spec: `RESERVED_EVENTS` is imported from the
repository's `socket` module, which is not among the provided sources; the
spec describes it as "a small reserved set (connection lifecycle events)". -/
def RESERVED_EVENTS : List String :=
  ["connect", "connect_error", "disconnect", "disconnecting",
   "newListener", "removeListener"]

/-- One positional `emit` argument: a data value or a trailing callback. -/
inductive EmitArg where
  | value (v : Nat)
  | callback
deriving DecidableEq, Repr

/-- `typeof data[data.length - 1] === "function"` where `data = [ev, ...args]`:
with no arguments the last element is the event name, never a function. -/
def withAck (args : List EmitArg) : Bool :=
  match args.getLast? with
  | some .callback => true
  | _ => false

/-- What the ack callback receives as its second argument. -/
inductive AckPayload where
  /-- the `responses` array. -/
  | arr (rs : List Nat)
  /-- `responses[0]` under `expectSingleResponse` (`none` when empty). -/
  | single (r : Option Nat)
  /-- `null`, passed on timeout under `expectSingleResponse`. -/
  | nullPayload
deriving DecidableEq, Repr

/-- One invocation of the ack callback. -/
inductive AckCall where
  /-- `ack(null, payload)`. -/
  | ok (p : AckPayload)
  /-- `ack(new Error("operation has timed out"), payload)`. -/
  | timeoutErr (p : AckPayload)
deriving DecidableEq, Repr

/-- The state captured by one ack-seeking `emit` call: the closed-over locals,
whether the deadline timer is still scheduled, and the trace of callback
invocations made so far. -/
structure AckState where
  timedOut : Bool
  timerActive : Bool
  expectedServerCount : Int
  actualServerCount : Nat
  expectedClientCount : Nat
  responses : List Nat
  calls : List AckCall
deriving DecidableEq, Repr

/-- The state right after `emit` set up its locals and started the timer:
`timedOut = false`, `expectedServerCount = -1`, `actualServerCount = 0`,
`expectedClientCount = 0`, `responses = []`. -/
def initAckState : AckState :=
  { timedOut := false, timerActive := true, expectedServerCount := -1,
    actualServerCount := 0, expectedClientCount := 0, responses := [],
    calls := [] }

/-- The guard of `checkCompleteness`: `!timedOut && expectedServerCount ===
actualServerCount && responses.length === expectedClientCount`. -/
def ackComplete (s : AckState) : Prop :=
  s.timedOut = false ∧ s.expectedServerCount = (s.actualServerCount : Int)
    ∧ s.responses.length = s.expectedClientCount

instance (s : AckState) : Decidable (ackComplete s) := by
  unfold ackComplete; infer_instance

/-- `this.flags.expectSingleResponse ? responses[0] : responses`. -/
def successPayload (expectSingle : Bool) (responses : List Nat) : AckPayload :=
  if expectSingle then .single responses.head? else .arr responses

/-- `this.flags.expectSingleResponse ? null : responses`. -/
def timeoutPayload (expectSingle : Bool) (responses : List Nat) : AckPayload :=
  if expectSingle then .nullPayload else .arr responses

/-- `checkCompleteness`: when the guard holds, cancel the timer
(`clearTimeout`) and invoke the callback with `(null, payload)`. -/
def checkCompleteness (expectSingle : Bool) (s : AckState) : AckState :=
  if ackComplete s then
    { s with timerActive := false,
             calls := s.calls
               ++ [.ok (successPayload expectSingle s.responses)] }
  else s

/-- The asynchronous events an ack-seeking `emit` reacts to. -/
inductive AckEvent where
  /-- the per-server callback of `broadcastWithAck` reporting `clientCount`. -/
  | serverAck (clientCount : Nat)
  /-- the per-response callback of `broadcastWithAck`. -/
  | clientAck (response : Nat)
  /-- resolution of `this.adapter.serverCount()`. -/
  | serverCountResolved (n : Nat)
  /-- expiry of the deadline timer (one-shot: only while still scheduled). -/
  | timerFire
deriving DecidableEq, Repr

/-- One event handler dispatch, exactly as the closures in `emit` run. -/
def ackStep (expectSingle : Bool) (s : AckState) : AckEvent → AckState
  | .serverAck n =>
      checkCompleteness expectSingle
        { s with expectedClientCount := s.expectedClientCount + n,
                 actualServerCount := s.actualServerCount + 1 }
  | .clientAck r =>
      checkCompleteness expectSingle { s with responses := s.responses ++ [r] }
  | .serverCountResolved n =>
      checkCompleteness expectSingle { s with expectedServerCount := (n : Int) }
  | .timerFire =>
      if s.timerActive then
        { s with timedOut := true, timerActive := false,
                 calls := s.calls
                   ++ [.timeoutErr (timeoutPayload expectSingle s.responses)] }
      else s

/-- Run a whole interleaving of events. -/
def ackRun (expectSingle : Bool) (s : AckState) (l : List AckEvent) :
    AckState :=
  l.foldl (ackStep expectSingle) s

/-- The client responses contained in an event list, in arrival order. -/
def clientResponses (l : List AckEvent) : List Nat :=
  l.filterMap fun e => match e with | .clientAck r => some r | _ => none

/-- The per-server matching-client counts contained in an event list. -/
def serverAckCounts (l : List AckEvent) : List Nat :=
  l.filterMap fun e => match e with | .serverAck n => some n | _ => none

/-- The `serverCount()` resolutions contained in an event list. -/
def serverCountValues (l : List AckEvent) : List Nat :=
  l.filterMap fun e =>
    match e with | .serverCountResolved n => some n | _ => none

/-- Is the event a timer expiry? -/
def AckEvent.isTimerFire : AckEvent → Bool
  | .timerFire => true
  | _ => false

/-- The two-server ack scenario: processes report 3 and 2 matching clients,
the cluster size resolves to 2, and five acknowledgments arrive. -/
def ackScenarioC2 : List AckEvent :=
  [.serverAck 3, .serverAck 2, .serverCountResolved 2,
   .clientAck 10, .clientAck 20, .clientAck 30, .clientAck 40, .clientAck 50]

/-- The timeout scenario: only 4 of the 5 expected acknowledgments arrive
before the deadline fires; the fifth arrives late. -/
def ackScenarioC3 : List AckEvent :=
  [.serverAck 3, .serverAck 2, .serverCountResolved 2,
   .clientAck 10, .clientAck 20, .clientAck 30, .clientAck 40,
   .timerFire, .clientAck 50]

/-- Modelled from the spec: the delay actually scheduled by the runtime's
`setTimeout(fn, this.flags.timeout)` — with `flags.timeout` unset the
runtime's default delay (1 ms in Node.js) applies, so a timer is always
scheduled: "if unset, the system's default timeout applies". -/
def setTimeoutDelay : Option Nat → Nat
  | some ms => ms
  | none => 1

/-- A packet built by `emit`: `{ type: PacketType.EVENT, data: [ev, ...args] }`
with `PacketType.EVENT = 2` in the external parser. -/
structure EventPacket where
  ptype : Nat
  ev : String
  args : List EmitArg
deriving DecidableEq, Repr

/-- The synchronous outcome of `BroadcastOperator.prototype.emit`. -/
inductive EmitOutcome where
  /-- `throw new Error(...)`: raised before any packet is built or any
  broadcast happens, hence this outcome carries neither. -/
  | reservedError (ev : String)
  /-- no trailing callback: one `adapter.broadcast` call, returns `true`. -/
  | fireAndForget (packet : EventPacket)
  /-- trailing callback: `adapter.broadcastWithAck` plus a started deadline
  timer and the fresh aggregation state. -/
  | ackAggregation (packet : EventPacket) (timerDelay : Nat) (init : AckState)
deriving DecidableEq, Repr

/-- `BroadcastOperator.prototype.emit`, up to the choice of delivery path:
the reserved-name check first, then the ack or fire-and-forget dispatch (the
callback is popped off the data in the ack case). -/
def BroadcastOperator.emitDispatch (op : BroadcastOperator) (ev : String)
    (args : List EmitArg) : EmitOutcome :=
  if RESERVED_EVENTS.contains ev then .reservedError ev
  else if withAck args then
    .ackAggregation ⟨2, ev, args.dropLast⟩ (setTimeoutDelay op.flags.timeout)
      initAckState
  else .fireAndForget ⟨2, ev, args⟩

/-- Did `emit` throw the reserved-event error? -/
def EmitOutcome.isReservedError : EmitOutcome → Bool
  | .reservedError _ => true
  | _ => false

/-- The snapshot handed to the `RemoteSocket` constructor. -/
structure SocketDetails where
  id : String
  rooms : List String
deriving DecidableEq, Repr

/-- `RemoteSocket`: read-only snapshot plus the private operator constructed
as `new BroadcastOperator(adapter, new Set([this.id]), new Set(),
{ expectSingleResponse: true })`. -/
structure RemoteSocket where
  id : String
  rooms : JSSet
  operator : BroadcastOperator
deriving DecidableEq, Repr

/-- The `RemoteSocket` constructor. -/
def RemoteSocket.make (st : SetStore) (details : SocketDetails) :
    SetStore × RemoteSocket :=
  let (st2, op) := BroadcastOperator.make st (JSSet.fromList [details.id]) []
    { expectSingleResponse := true }
  (st2,
    { id := details.id, rooms := JSSet.fromList details.rooms,
      operator := op })

/-!
## Theorems
-/

/-- Adding an element puts it in the set. -/
lemma JSSet.mem_add_self (s : JSSet) (x : String) : x ∈ JSSet.add s x := by
  unfold JSSet.add
  split
  · assumption
  · simp

/-- Adding preserves the existing elements. -/
lemma JSSet.mem_add_of_mem {s : JSSet} {y : String} (x : String)
    (h : y ∈ s) : y ∈ JSSet.add s x := by
  unfold JSSet.add
  split <;> simp [h]

/-- Looking up the key just updated yields the updated value. -/
lemma alookup_mapUpdate_self (m : List (String × List String)) (k : String)
    (f : List String → List String) :
    alookup (mapUpdate m k f) k = some (f ((alookup m k).getD [])) := by
  induction m with
  | nil => simp [mapUpdate, alookup]
  | cons p t ih =>
    obtain ⟨a, v⟩ := p
    by_cases h : a = k
    · simp [mapUpdate, alookup, h]
    · simp [mapUpdate, alookup, h, ih]

/-- Looking up the key just adjusted maps the old value through `f`. -/
lemma alookup_mapAdjust_self (m : List (String × List String)) (k : String)
    (f : List String → List String) :
    alookup (mapAdjust m k f) k = (alookup m k).map f := by
  induction m with
  | nil => simp [mapAdjust, alookup]
  | cons p t ih =>
    obtain ⟨a, v⟩ := p
    by_cases h : a = k
    · simp [mapAdjust, alookup, h]
    · simp [mapAdjust, alookup, h, ih]

/-- A removed key no longer resolves. -/
lemma alookup_mapRemove_self (m : List (String × List String)) (k : String) :
    alookup (mapRemove m k) k = none := by
  induction m with
  | nil => simp [mapRemove, alookup]
  | cons p t ih =>
    obtain ⟨a, v⟩ := p
    by_cases h : a = k
    · simpa [mapRemove, alookup, h] using ih
    · simpa [mapRemove, alookup, h] using ih

/-- Adjusting with a function that fixes the stored value is a no-op. -/
lemma mapAdjust_eq_self (m : List (String × List String)) (k : String)
    (f : List String → List String)
    (h : ∀ v, alookup m k = some v → f v = v) : mapAdjust m k f = m := by
  induction m with
  | nil => simp [mapAdjust]
  | cons p t ih =>
    obtain ⟨a, v⟩ := p
    by_cases hk : a = k
    · have := h v (by simp [alookup, hk])
      simp [mapAdjust, hk, this]
    · simp only [mapAdjust, hk, if_false]
      rw [ih fun v hv => h v (by simp [alookup, hk, hv])]

/-- Each fold step of the base `addAll` extends the connection's room set by
exactly the processed room. -/
lemma connRooms_addAll_step (acc : AdapterState) (id room : String) :
    connRooms
      { sids := mapUpdate acc.sids id (fun s => JSSet.add s room),
        rooms := mapUpdate acc.rooms room (fun s => JSSet.add s id) } id
      = JSSet.add (connRooms acc id) room := by
  simp [connRooms, alookup_mapUpdate_self]

/-- Membership in the connection's room set survives the rest of the fold. -/
lemma mem_connRooms_addAll_foldl (rooms : List String) (acc : AdapterState)
    (id r : String) (h : r ∈ connRooms acc id) :
    r ∈ connRooms
      (rooms.foldl
        (fun acc room =>
          { sids := mapUpdate acc.sids id (fun s => JSSet.add s room),
            rooms := mapUpdate acc.rooms room (fun s => JSSet.add s id) })
        acc) id := by
  induction rooms generalizing acc with
  | nil => simpa using h
  | cons room t ih =>
    refine ih _ ?_
    rw [connRooms_addAll_step]
    exact JSSet.mem_add_of_mem _ h

/-- Every processed room ends up in the connection's room set. -/
lemma mem_connRooms_addAll_foldl_self (rooms : List String)
    (acc : AdapterState) (id r : String) (hr : r ∈ rooms) :
    r ∈ connRooms
      (rooms.foldl
        (fun acc room =>
          { sids := mapUpdate acc.sids id (fun s => JSSet.add s room),
            rooms := mapUpdate acc.rooms room (fun s => JSSet.add s id) })
        acc) id := by
  induction rooms generalizing acc with
  | nil => cases hr
  | cons room t ih =>
    rcases List.mem_cons.mp hr with rfl | hmem
    · simp only [List.foldl_cons]
      apply mem_connRooms_addAll_foldl
      rw [connRooms_addAll_step]
      exact JSSet.mem_add_self _ _
    · simp only [List.foldl_cons]
      exact ih _ hmem

/-- Every room passed to the base `addAll` ends up in the connection's room
set. -/
lemma mem_connRooms_baseAddAll (st : AdapterState) (id : String)
    (rooms : List String) (r : String) (hr : r ∈ rooms) :
    r ∈ connRooms (baseAddAll st id rooms) id := by
  unfold baseAddAll
  exact mem_connRooms_addAll_foldl_self _ _ _ _ hr

/-- Claim C1: the patched broadcast takes the fast topic-publish path iff
`rooms.size ≤ 1 ∧ except.size = 0`, and on that path the number of
`app.publish` calls equals the number of frames obtained by encoding the
(namespace-stamped) packet once, whatever connections match. -/
theorem broadcast_fast_path_iff_publish_count_C1
    (nspName : String) (encode : Packet → List Frame)
    (matchingSockets : List ConnSocket) (packet : Packet)
    (opts : BroadcastOptions) :
    (BroadcastEffect.genericBroadcast ∉
        Adapter.broadcast nspName encode matchingSockets packet opts
      ↔ (opts.rooms.size ≤ 1 ∧ opts.except.size = 0))
    ∧ (opts.rooms.size ≤ 1 ∧ opts.except.size = 0 →
        countPublish (Adapter.broadcast nspName encode matchingSockets packet opts)
          = (encode { packet with nsp := nspName }).length) := by
  unfold Adapter.broadcast
  by_cases h : opts.rooms.size ≤ 1 ∧ opts.except.size = 0
  · rw [if_neg (not_not_intro h)]
    refine ⟨⟨fun _ => h, fun _ hmem => ?_⟩, fun _ => ?_⟩
    · simp only [List.mem_append, List.mem_map] at hmem
      rcases hmem with ⟨f, _, hf⟩ | ⟨s, _, hs⟩ <;> simp_all
    · simp [countPublish, BroadcastEffect.isPublish, List.filter_append,
        List.filter_map, Function.comp]
  · rw [if_pos h]
    exact ⟨by simp [h], fun hc => absurd hc h⟩

/-- Witness for claim C1: a concrete fast-path selector (one room, no
exclusions) with a two-frame encoding and two matching connections makes
exactly two publish calls. -/
theorem broadcast_fast_path_iff_publish_count_C1_witness :
    countPublish (Adapter.broadcast "/" (fun _ => [⟨false, "a"⟩, ⟨true, "b"⟩])
        [⟨"s1", "polling"⟩, ⟨"s2", "websocket"⟩]
        ⟨2, ["hello"], ""⟩ ⟨["room1"], [], {}⟩) = 2 := by
  have h := (broadcast_fast_path_iff_publish_count_C1 "/"
    (fun _ => [⟨false, "a"⟩, ⟨true, "b"⟩])
    [⟨"s1", "polling"⟩, ⟨"s2", "websocket"⟩]
    ⟨2, ["hello"], ""⟩ ⟨["room1"], [], {}⟩).2 (by decide)
  simpa using h

/-- Claim C5: every chaining method returns a new operator and never mutates
the receiver.  `to` and `except` only allocate (every pre-existing set cell is
unchanged) and return an operator distinct from the receiver; the flag methods
copy the flags, leaving the receiver's sets and flags untouched by purity of
the copy; and in the concrete chain `a = op.to "x"; b = a.to "y"`, `a`'s rooms
set still holds exactly `{"x"}`. -/
theorem operator_chaining_immutable_C5 :
    (∀ (st : SetStore) (op : BroadcastOperator) (arg : RoomArg) (i : Nat),
        i < st.length →
        ((BroadcastOperator.to st op arg).1).deref i = st.deref i)
    ∧ (∀ (st : SetStore) (op : BroadcastOperator) (arg : RoomArg) (i : Nat),
        i < st.length →
        ((BroadcastOperator.except st op arg).1).deref i = st.deref i)
    ∧ (∀ (st : SetStore) (op : BroadcastOperator) (arg : RoomArg),
        ((BroadcastOperator.to st op arg).2).exceptRef = op.exceptRef
        ∧ ((BroadcastOperator.to st op arg).2).flags = op.flags
        ∧ ((BroadcastOperator.except st op arg).2).roomsRef = op.roomsRef
        ∧ ((BroadcastOperator.except st op arg).2).flags = op.flags)
    ∧ (∀ (op : BroadcastOperator) (c : Bool) (t : Nat),
        (op.compress c).roomsRef = op.roomsRef
        ∧ (op.compress c).exceptRef = op.exceptRef
        ∧ op.volatile.roomsRef = op.roomsRef
        ∧ op.localOp.roomsRef = op.roomsRef
        ∧ (op.timeout t).roomsRef = op.roomsRef)
    ∧ (let p0 := BroadcastOperator.new []
       let p1 := BroadcastOperator.to p0.1 p0.2 (.single "x")
       let p2 := BroadcastOperator.to p1.1 p1.2 (.single "y")
       p2.1.deref p1.2.roomsRef = ["x"]
       ∧ p2.1.deref p2.2.roomsRef = ["x", "y"]
       ∧ p2.2.roomsRef ≠ p1.2.roomsRef) := by
  refine ⟨?_, ?_, ?_, ?_, ?_⟩
  · intro st op arg i hi
    simp only [BroadcastOperator.to, SetStore.alloc, SetStore.deref]
    exact List.getD_append _ _ _ _ hi
  · intro st op arg i hi
    simp only [BroadcastOperator.except, SetStore.alloc, SetStore.deref]
    exact List.getD_append _ _ _ _ hi
  · intro st op arg
    exact ⟨rfl, rfl, rfl, rfl⟩
  · intro op c t
    exact ⟨rfl, rfl, rfl, rfl, rfl⟩
  · decide

/-- Witness for claim C5: the store-preservation parts applied to the concrete
two-step chain: constructing `b` from `a` leaves `a`'s rooms cell equal to
`["x"]`. -/
theorem operator_chaining_immutable_C5_witness :
    ((BroadcastOperator.to [["x"], []] ⟨0, 1, {}⟩ (.single "y")).1).deref 0
      = ["x"] := by
  have h := operator_chaining_immutable_C5.1 [["x"], []] ⟨0, 1, {}⟩
    (.single "y") 0 (by decide)
  simpa [SetStore.deref] using h

/-- Claim C6: when the connection has a live socket, `addAll` on a brand-new
connection subscribes the namespace's implicit topic once, then each derived
room topic, and notifies the connection logger with `(namespaceName, id)`;
on an already-known connection it subscribes only the derived room topics and
does not notify the logger. -/
theorem addAll_subscribe_and_log_C6 (nsp : NspState) (st : AdapterState)
    (id : String) (rooms : List String)
    (hlive : nsp.sockets.contains id = true) :
    ((alookup st.sids id).isNone = true →
      (Adapter.addAll nsp st id rooms).2
        = AdapterEffect.subscribe nsp.name
            :: (rooms.map (fun room =>
                  AdapterEffect.subscribe (nsp.name ++ SEPARATOR ++ room))
                ++ [AdapterEffect.logConnection nsp.name id]))
    ∧ ((alookup st.sids id).isSome = true →
      (Adapter.addAll nsp st id rooms).2
        = rooms.map (fun room =>
            AdapterEffect.subscribe (nsp.name ++ SEPARATOR ++ room))) := by
  have hm : id ∈ nsp.sockets := by simpa using hlive
  constructor
  · intro hnew
    simp [Adapter.addAll, hm, hnew]
  · intro hsome
    have hnone : (alookup st.sids id).isNone = false := by
      cases h : alookup st.sids id <;> simp_all
    simp [Adapter.addAll, hm, hnone]

/-- Witness for claim C6: a fresh connection `c1` with a live socket joining
rooms `r1`, `r2` makes exactly the namespace subscription, the two room-topic
subscriptions, and one logger notification — in this order. -/
theorem addAll_subscribe_and_log_C6_witness :
    (Adapter.addAll ⟨"/", ["c1"]⟩ ⟨[], []⟩ "c1" ["r1", "r2"]).2
      = [AdapterEffect.subscribe "/",
         AdapterEffect.subscribe ("/" ++ SEPARATOR ++ "r1"),
         AdapterEffect.subscribe ("/" ++ SEPARATOR ++ "r2"),
         AdapterEffect.logConnection "/" "c1"] := by
  have h := (addAll_subscribe_and_log_C6 ⟨"/", ["c1"]⟩ ⟨[], []⟩ "c1"
    ["r1", "r2"] (by decide)).1 (by decide)
  simpa using h

/-- Claim C10: `addAll` for an id with no live socket still updates the
membership sets (the base `addAll` runs first), but performs no transport
subscription and never notifies the logger, even for a new connection. -/
theorem addAll_no_socket_C10 (nsp : NspState) (st : AdapterState)
    (id : String) (rooms : List String)
    (hdead : nsp.sockets.contains id = false) :
    (Adapter.addAll nsp st id rooms).2 = []
    ∧ (Adapter.addAll nsp st id rooms).1 = baseAddAll st id rooms
    ∧ ∀ r ∈ rooms, r ∈ connRooms (Adapter.addAll nsp st id rooms).1 id := by
  have hm : id ∉ nsp.sockets := by simpa using hdead
  refine ⟨by simp [Adapter.addAll, hm], by simp [Adapter.addAll, hm],
    fun r hr => ?_⟩
  have h1 : (Adapter.addAll nsp st id rooms).1 = baseAddAll st id rooms := by
    simp [Adapter.addAll, hm]
  rw [h1]
  exact mem_connRooms_baseAddAll st id rooms r hr

/-- Witness for claim C10: a new connection with no live socket joins `r1`:
no effects, yet `r1` is recorded in its membership. -/
theorem addAll_no_socket_C10_witness :
    (Adapter.addAll ⟨"/", []⟩ ⟨[], []⟩ "c1" ["r1"]).2 = []
    ∧ "r1" ∈ connRooms (Adapter.addAll ⟨"/", []⟩ ⟨[], []⟩ "c1" ["r1"]).1 "c1" := by
  have h := addAll_no_socket_C10 ⟨"/", []⟩ ⟨[], []⟩ "c1" ["r1"] (by decide)
  exact ⟨h.1, h.2.2 "r1" (by decide)⟩

/-- Claim C7: `del` removes the connection from the room's membership set;
when the id has a live socket the transport is unsubscribed from exactly the
one derived topic (and no transport action happens otherwise); and deleting
from a room the connection is not in leaves the membership state unchanged. -/
theorem del_membership_unsubscribe_C7 (nsp : NspState) (st : AdapterState)
    (id room : String) (hnd : (roomMembers st room).Nodup) :
    id ∉ roomMembers (Adapter.del nsp st id room).1 room
    ∧ (nsp.sockets.contains id = true →
        (Adapter.del nsp st id room).2
          = [AdapterEffect.unsubscribe (nsp.name ++ SEPARATOR ++ room)])
    ∧ (nsp.sockets.contains id = false → (Adapter.del nsp st id room).2 = [])
    ∧ (id ∉ roomMembers st room → room ∉ connRooms st id →
        (Adapter.del nsp st id room).1 = st) := by
  have hfst : (Adapter.del nsp st id room).1 = baseDel st id room := by
    unfold Adapter.del
    cases h : nsp.sockets.contains id <;> simp [h]
  refine ⟨?_, ?_, ?_, ?_⟩
  · rw [hfst]
    unfold baseDel roomMembers
    cases hlk : alookup st.rooms room with
    | none => simp [hlk]
    | some members =>
      by_cases hmem : id ∈ members
      · by_cases hempty : members.erase id = []
        · simp [hlk, hmem, hempty, alookup_mapRemove_self]
        · have hnd' : members.Nodup := by
            simpa [roomMembers, hlk] using hnd
          simp only [hlk, hmem, if_true, hempty, if_false,
            alookup_mapAdjust_self, Option.map_some, Option.getD_some]
          exact hnd'.not_mem_erase
      · simp [hlk, hmem]
  · intro h
    have hm : id ∈ nsp.sockets := by simpa using h
    simp [Adapter.del, hm]
  · intro h
    have hm : id ∉ nsp.sockets := by simpa using h
    simp [Adapter.del, hm]
  · intro hnotin hnoroom
    rw [hfst]
    unfold baseDel
    have hrooms :
        (match alookup st.rooms room with
          | none => st.rooms
          | some members =>
            if id ∈ members then
              if members.erase id = [] then mapRemove st.rooms room
              else mapAdjust st.rooms room (fun _ => members.erase id)
            else st.rooms) = st.rooms := by
      cases hlk : alookup st.rooms room with
      | none => rfl
      | some members =>
        have : id ∉ members := by
          simpa [roomMembers, hlk] using hnotin
        simp [this]
    have hsids : mapAdjust st.sids id (fun s => s.erase room) = st.sids := by
      apply mapAdjust_eq_self
      intro v hv
      have : room ∉ v := by
        simpa [connRooms, hv] using hnoroom
      exact List.erase_of_not_mem this
    rw [hrooms, hsids]

/-- Witness for claim C7: connection `c1` (live) is in rooms `r1` and `r2`;
deleting it from `r1` removes it from `r1`'s membership and unsubscribes the
single topic; deleting it from a room it is not in (`r9`) leaves the state
unchanged. -/
theorem del_membership_unsubscribe_C7_witness :
    "c1" ∉ roomMembers
        (Adapter.del ⟨"/", ["c1"]⟩
          ⟨[("c1", ["r1", "r2"])], [("r1", ["c1", "c2"]), ("r2", ["c1"])]⟩
          "c1" "r1").1 "r1"
    ∧ (Adapter.del ⟨"/", ["c1"]⟩
          ⟨[("c1", ["r1", "r2"])], [("r1", ["c1", "c2"]), ("r2", ["c1"])]⟩
          "c1" "r1").2
        = [AdapterEffect.unsubscribe ("/" ++ SEPARATOR ++ "r1")]
    ∧ (Adapter.del ⟨"/", ["c1"]⟩
          ⟨[("c1", ["r1", "r2"])], [("r1", ["c1", "c2"]), ("r2", ["c1"])]⟩
          "c1" "r9").1
        = ⟨[("c1", ["r1", "r2"])], [("r1", ["c1", "c2"]), ("r2", ["c1"])]⟩ := by
  refine ⟨?_, ?_, ?_⟩
  · exact (del_membership_unsubscribe_C7 ⟨"/", ["c1"]⟩
      ⟨[("c1", ["r1", "r2"])], [("r1", ["c1", "c2"]), ("r2", ["c1"])]⟩
      "c1" "r1" (by decide)).1
  · exact (del_membership_unsubscribe_C7 ⟨"/", ["c1"]⟩
      ⟨[("c1", ["r1", "r2"])], [("r1", ["c1", "c2"]), ("r2", ["c1"])]⟩
      "c1" "r1" (by decide)).2.1 (by decide)
  · exact (del_membership_unsubscribe_C7 ⟨"/", ["c1"]⟩
      ⟨[("c1", ["r1", "r2"])], [("r1", ["c1", "c2"]), ("r2", ["c1"])]⟩
      "c1" "r9" (by decide)).2.2.2 (by decide) (by decide)

/-- `checkCompleteness` preserves `timedOut`. -/
lemma checkCompleteness_timedOut (es : Bool) (s : AckState) :
    (checkCompleteness es s).timedOut = s.timedOut := by
  unfold checkCompleteness; split <;> rfl

/-- `checkCompleteness` preserves `expectedServerCount`. -/
lemma checkCompleteness_expected (es : Bool) (s : AckState) :
    (checkCompleteness es s).expectedServerCount = s.expectedServerCount := by
  unfold checkCompleteness; split <;> rfl

/-- `checkCompleteness` preserves `actualServerCount`. -/
lemma checkCompleteness_actual (es : Bool) (s : AckState) :
    (checkCompleteness es s).actualServerCount = s.actualServerCount := by
  unfold checkCompleteness; split <;> rfl

/-- `checkCompleteness` preserves `expectedClientCount`. -/
lemma checkCompleteness_expectedClient (es : Bool) (s : AckState) :
    (checkCompleteness es s).expectedClientCount = s.expectedClientCount := by
  unfold checkCompleteness; split <;> rfl

/-- `checkCompleteness` preserves `responses`. -/
lemma checkCompleteness_responses (es : Bool) (s : AckState) :
    (checkCompleteness es s).responses = s.responses := by
  unfold checkCompleteness; split <;> rfl

/-- Running an appended trace composes. -/
lemma ackRun_append (es : Bool) (s : AckState) (l₁ l₂ : List AckEvent) :
    ackRun es s (l₁ ++ l₂) = ackRun es (ackRun es s l₁) l₂ := by
  simp [ackRun, List.foldl_append]

/-- Running one extra event steps once more. -/
lemma ackRun_concat (es : Bool) (s : AckState) (l : List AckEvent)
    (e : AckEvent) : ackRun es s (l ++ [e]) = ackStep es (ackRun es s l) e := by
  simp [ackRun, List.foldl_append]

/-- After the timeout fired, no handler ever adds a callback invocation and
the timed-out, timer-cancelled state is permanent. -/
lemma ackStep_frozen (es : Bool) (s : AckState) (e : AckEvent)
    (ht : s.timedOut = true) (ha : s.timerActive = false) :
    (ackStep es s e).calls = s.calls ∧ (ackStep es s e).timedOut = true
      ∧ (ackStep es s e).timerActive = false := by
  cases e <;>
    simp only [ackStep, checkCompleteness, ackComplete] <;>
    split <;> simp_all

/-- After the timeout fired, the whole rest of the run adds no callback
invocation. -/
lemma ackRun_frozen (es : Bool) (s : AckState) (l : List AckEvent)
    (ht : s.timedOut = true) (ha : s.timerActive = false) :
    (ackRun es s l).calls = s.calls := by
  induction l generalizing s with
  | nil => rfl
  | cons e t ih =>
    have h := ackStep_frozen es s e ht ha
    have : ackRun es s (e :: t) = ackRun es (ackStep es s e) t := rfl
    rw [this, ih (ackStep es s e) h.2.1 h.2.2, h.1]

/-- Every step preserves "the timer is scheduled or the callback has been
invoked". -/
lemma ackStep_timer_or_calls (es : Bool) (s : AckState) (e : AckEvent)
    (h : s.timerActive = true ∨ s.calls ≠ []) :
    (ackStep es s e).timerActive = true ∨ (ackStep es s e).calls ≠ [] := by
  cases e <;>
    simp only [ackStep, checkCompleteness] <;>
    split <;> simp_all

/-- Whole-run version of `ackStep_timer_or_calls`. -/
lemma ackRun_timer_or_calls (es : Bool) (s : AckState) (l : List AckEvent)
    (h : s.timerActive = true ∨ s.calls ≠ []) :
    (ackRun es s l).timerActive = true ∨ (ackRun es s l).calls ≠ [] := by
  induction l generalizing s with
  | nil => exact h
  | cons e t ih =>
    have : ackRun es s (e :: t) = ackRun es (ackStep es s e) t := rfl
    rw [this]
    exact ih _ (ackStep_timer_or_calls es s e h)

/-- A callback invocation, once made, is never retracted. -/
lemma ackStep_calls_mono (es : Bool) (s : AckState) (e : AckEvent)
    (h : s.calls ≠ []) : (ackStep es s e).calls ≠ [] := by
  cases e <;>
    simp only [ackStep, checkCompleteness] <;>
    split <;> simp_all

/-- Whole-run version of `ackStep_calls_mono`. -/
lemma ackRun_calls_mono (es : Bool) (s : AckState) (l : List AckEvent)
    (h : s.calls ≠ []) : (ackRun es s l).calls ≠ [] := by
  induction l generalizing s with
  | nil => exact h
  | cons e t ih =>
    have : ackRun es s (e :: t) = ackRun es (ackStep es s e) t := rfl
    rw [this]
    exact ih _ (ackStep_calls_mono es s e h)

/-- When the deadline fires, a still-scheduled timer reports the timeout, and
an unscheduled one means the callback already ran. -/
lemma ackStep_timerFire_calls (es : Bool) (s : AckState)
    (h : s.timerActive = true ∨ s.calls ≠ []) :
    (ackStep es s .timerFire).calls ≠ [] := by
  simp only [ackStep]
  split <;> simp_all

/-- Claim C8: `emit` raises the reserved-event error exactly for event names
in the reserved set — synchronously, before any packet is built or any
broadcast happens (the error outcome carries neither) — and never for other
names. -/
theorem emit_reserved_events_C8 (op : BroadcastOperator) (ev : String)
    (args : List EmitArg) :
    (BroadcastOperator.emitDispatch op ev args).isReservedError
      = RESERVED_EVENTS.contains ev := by
  unfold BroadcastOperator.emitDispatch
  cases h : RESERVED_EVENTS.contains ev with
  | false =>
    cases hw : withAck args <;> simp [EmitOutcome.isReservedError]
  | true =>
    simp [EmitOutcome.isReservedError]

/-- Claim C4: every ack-seeking emit starts the deadline timer — for
`flags.timeout` when set, for the runtime's default delay otherwise — and in
any run in which the deadline fires the callback has been invoked by then or
is invoked by the timeout handler: no unbounded wait. -/
theorem emit_deadline_always_C4 (op : BroadcastOperator) (ev : String)
    (args : List EmitArg) (es : Bool)
    (hres : RESERVED_EVENTS.contains ev = false)
    (hack : withAck args = true) :
    BroadcastOperator.emitDispatch op ev args
      = .ackAggregation ⟨2, ev, args.dropLast⟩
          (setTimeoutDelay op.flags.timeout) initAckState
    ∧ initAckState.timerActive = true
    ∧ (∀ ms, op.flags.timeout = some ms →
        setTimeoutDelay op.flags.timeout = ms)
    ∧ (op.flags.timeout = none → setTimeoutDelay op.flags.timeout = 1)
    ∧ (∀ l : List AckEvent, AckEvent.timerFire ∈ l →
        (ackRun es initAckState l).calls ≠ []) := by
  refine ⟨?_, rfl, ?_, ?_, ?_⟩
  · unfold BroadcastOperator.emitDispatch
    rw [hres, hack]
    simp
  · intro ms h; simp [setTimeoutDelay, h]
  · intro h; simp [setTimeoutDelay, h]
  · intro l hmem
    obtain ⟨l1, l2, rfl⟩ := List.append_of_mem hmem
    rw [show l1 ++ AckEvent.timerFire :: l2
        = (l1 ++ [AckEvent.timerFire]) ++ l2 by simp]
    rw [ackRun_append, ackRun_concat]
    apply ackRun_calls_mono
    apply ackStep_timerFire_calls
    exact ackRun_timer_or_calls es initAckState l1 (Or.inl rfl)

/-- Witness for claim C4: a non-reserved ack-seeking emit with no timeout
flag schedules the default 1 ms deadline, and the run consisting of just the
deadline expiry has invoked the callback. -/
theorem emit_deadline_always_C4_witness :
    BroadcastOperator.emitDispatch ⟨0, 1, {}⟩ "foo" [.callback]
      = .ackAggregation ⟨2, "foo", []⟩ 1 initAckState
    ∧ (ackRun false initAckState [.timerFire]).calls ≠ [] := by
  have h := emit_deadline_always_C4 ⟨0, 1, {}⟩ "foo" [.callback] false
    (by decide) (by decide)
  exact ⟨by simpa using h.1, h.2.2.2.2 [.timerFire] (by decide)⟩

/-- Claim C3: with only 4 of the 5 expected acknowledgments arrived when the
deadline fires, the callback is invoked exactly once — with the timeout error
and the partial 4-element response array — and no later event (in particular
the late fifth response) ever causes another invocation. -/
theorem ack_timeout_once_C3 (late : List AckEvent) :
    (ackRun false initAckState (ackScenarioC3 ++ late)).calls
      = [AckCall.timeoutErr (AckPayload.arr [10, 20, 30, 40])] := by
  rw [ackRun_append]
  have hmid : ackRun false initAckState ackScenarioC3
      = { timedOut := true, timerActive := false, expectedServerCount := 2,
          actualServerCount := 2, expectedClientCount := 5,
          responses := [10, 20, 30, 40, 50],
          calls := [AckCall.timeoutErr (AckPayload.arr [10, 20, 30, 40])] } := by
    rfl
  rw [hmid, ackRun_frozen false _ late rfl rfl]

/-- `new Set([x])` holds exactly `x`. -/
lemma JSSet.fromList_singleton (x : String) : JSSet.fromList [x] = [x] := by
  simp [JSSet.fromList, JSSet.add]

/-- A cell appended at the end of the store sits at the old length. -/
lemma SetStore.deref_append_cons (st : SetStore) (x : JSSet)
    (rest : List JSSet) :
    SetStore.deref (st ++ x :: rest) st.length = x := by
  unfold SetStore.deref
  rw [List.getD_append_right _ _ _ _ (le_refl _)]
  simp

/-- Claim C9: the Remote Socket Handle's private operator is scoped to rooms
`{id}`, an empty exclusion set, and flags consisting solely of
`expectSingleResponse: true`; consequently an ack-seeking emit that receives
exactly one response hands the callback that response as a bare value, not a
one-element array. -/
theorem remote_socket_single_response_C9 (st : SetStore)
    (details : SocketDetails) (r : Nat) :
    (((RemoteSocket.make st details).1).deref
        ((RemoteSocket.make st details).2).operator.roomsRef = [details.id]
      ∧ ((RemoteSocket.make st details).1).deref
          ((RemoteSocket.make st details).2).operator.exceptRef = []
      ∧ ((RemoteSocket.make st details).2).operator.flags
          = { expectSingleResponse := true })
    ∧ (ackRun true initAckState
        [.serverAck 1, .serverCountResolved 1, .clientAck r]).calls
        = [AckCall.ok (AckPayload.single (some r))] := by
  refine ⟨⟨?_, ?_, rfl⟩, ?_⟩
  · simp only [RemoteSocket.make, BroadcastOperator.make, SetStore.alloc,
      JSSet.fromList_singleton, List.append_assoc, List.cons_append,
      List.nil_append]
    exact SetStore.deref_append_cons st [details.id] [[]]
  · simp only [RemoteSocket.make, BroadcastOperator.make, SetStore.alloc,
      JSSet.fromList_singleton]
    exact SetStore.deref_append_cons (st ++ [[details.id]]) [] []
  · rfl

/-- `serverAckCounts` distributes over append. -/
lemma serverAckCounts_append (l₁ l₂ : List AckEvent) :
    serverAckCounts (l₁ ++ l₂) = serverAckCounts l₁ ++ serverAckCounts l₂ := by
  simp [serverAckCounts, List.filterMap_append]

/-- `clientResponses` distributes over append. -/
lemma clientResponses_append (l₁ l₂ : List AckEvent) :
    clientResponses (l₁ ++ l₂) = clientResponses l₁ ++ clientResponses l₂ := by
  simp [clientResponses, List.filterMap_append]

/-- `serverCountValues` distributes over append. -/
lemma serverCountValues_append (l₁ l₂ : List AckEvent) :
    serverCountValues (l₁ ++ l₂)
      = serverCountValues l₁ ++ serverCountValues l₂ := by
  simp [serverCountValues, List.filterMap_append]

/-- One step increments `actualServerCount` for server acks only. -/
lemma ackStep_actual (es : Bool) (s : AckState) (e : AckEvent) :
    (ackStep es s e).actualServerCount
      = s.actualServerCount + (serverAckCounts [e]).length := by
  cases e with
  | serverAck n => simp [ackStep, checkCompleteness_actual, serverAckCounts]
  | clientAck r => simp [ackStep, checkCompleteness_actual, serverAckCounts]
  | serverCountResolved n =>
    simp [ackStep, checkCompleteness_actual, serverAckCounts]
  | timerFire =>
    simp only [ackStep]
    split <;> simp [serverAckCounts]

/-- One step adds the reported client count to `expectedClientCount`. -/
lemma ackStep_expectedClient (es : Bool) (s : AckState) (e : AckEvent) :
    (ackStep es s e).expectedClientCount
      = s.expectedClientCount + (serverAckCounts [e]).sum := by
  cases e with
  | serverAck n =>
    simp [ackStep, checkCompleteness_expectedClient, serverAckCounts]
  | clientAck r =>
    simp [ackStep, checkCompleteness_expectedClient, serverAckCounts]
  | serverCountResolved n =>
    simp [ackStep, checkCompleteness_expectedClient, serverAckCounts]
  | timerFire =>
    simp only [ackStep]
    split <;> simp [serverAckCounts]

/-- One step appends the client response, if any, to `responses`. -/
lemma ackStep_responses (es : Bool) (s : AckState) (e : AckEvent) :
    (ackStep es s e).responses = s.responses ++ clientResponses [e] := by
  cases e with
  | serverAck n => simp [ackStep, checkCompleteness_responses, clientResponses]
  | clientAck r => simp [ackStep, checkCompleteness_responses, clientResponses]
  | serverCountResolved n =>
    simp [ackStep, checkCompleteness_responses, clientResponses]
  | timerFire =>
    simp only [ackStep]
    split <;> simp [clientResponses]

/-- Over a run, `actualServerCount` counts the server acks. -/
lemma ackRun_actual (es : Bool) (s : AckState) (l : List AckEvent) :
    (ackRun es s l).actualServerCount
      = s.actualServerCount + (serverAckCounts l).length := by
  induction l generalizing s with
  | nil => simp [ackRun, serverAckCounts]
  | cons e t ih =>
    have hstep : ackRun es s (e :: t) = ackRun es (ackStep es s e) t := rfl
    rw [hstep, ih, ackStep_actual,
      show e :: t = [e] ++ t from rfl, serverAckCounts_append]
    simp [Nat.add_assoc]

/-- Over a run, `expectedClientCount` sums the reported client counts. -/
lemma ackRun_expectedClient (es : Bool) (s : AckState) (l : List AckEvent) :
    (ackRun es s l).expectedClientCount
      = s.expectedClientCount + (serverAckCounts l).sum := by
  induction l generalizing s with
  | nil => simp [ackRun, serverAckCounts]
  | cons e t ih =>
    have hstep : ackRun es s (e :: t) = ackRun es (ackStep es s e) t := rfl
    rw [hstep, ih, ackStep_expectedClient,
      show e :: t = [e] ++ t from rfl, serverAckCounts_append]
    simp [Nat.add_assoc]

/-- Over a run, `responses` collects the client responses in arrival order. -/
lemma ackRun_responses (es : Bool) (s : AckState) (l : List AckEvent) :
    (ackRun es s l).responses = s.responses ++ clientResponses l := by
  induction l generalizing s with
  | nil => simp [ackRun, clientResponses]
  | cons e t ih =>
    have hstep : ackRun es s (e :: t) = ackRun es (ackStep es s e) t := rfl
    rw [hstep, ih, ackStep_responses,
      show e :: t = [e] ++ t from rfl, clientResponses_append]
    simp

/-- Without a timer expiry, `timedOut` never changes. -/
lemma ackRun_timedOut (es : Bool) (s : AckState) (l : List AckEvent)
    (h : AckEvent.timerFire ∉ l) : (ackRun es s l).timedOut = s.timedOut := by
  induction l generalizing s with
  | nil => rfl
  | cons e t ih =>
    have hstep : ackRun es s (e :: t) = ackRun es (ackStep es s e) t := rfl
    rw [hstep, ih _ (fun hm => h (List.mem_cons_of_mem _ hm))]
    cases e with
    | serverAck n => simp [ackStep, checkCompleteness_timedOut]
    | clientAck r => simp [ackStep, checkCompleteness_timedOut]
    | serverCountResolved n => simp [ackStep, checkCompleteness_timedOut]
    | timerFire => exact absurd (List.mem_cons_self _ _) h

/-- When every `serverCount()` resolution in the trace reports 2, the
expected server count is the sentinel before the first resolution and 2 from
then on. -/
lemma ackRun_expected (es : Bool) (s : AckState) (l : List AckEvent)
    (h2 : ∀ n, AckEvent.serverCountResolved n ∈ l → n = 2) :
    (ackRun es s l).expectedServerCount
      = if serverCountValues l = [] then s.expectedServerCount else 2 := by
  induction l generalizing s with
  | nil => simp [ackRun, serverCountValues]
  | cons e t ih =>
    have hstep : ackRun es s (e :: t) = ackRun es (ackStep es s e) t := rfl
    rw [hstep, ih _ (fun n hn => h2 n (List.mem_cons_of_mem _ hn))]
    cases e with
    | serverCountResolved n =>
      have hn : n = 2 := h2 n (List.mem_cons_self _ _)
      have hexp : (ackStep es s (.serverCountResolved n)).expectedServerCount
          = (n : Int) := by
        simp [ackStep, checkCompleteness_expected]
      subst hn
      by_cases hc : serverCountValues t = [] <;>
        simp [serverCountValues, List.filterMap_cons, hc, hexp]
    | serverAck n =>
      have hexp : (ackStep es s (.serverAck n)).expectedServerCount
          = s.expectedServerCount := by
        simp [ackStep, checkCompleteness_expected]
      simp [serverCountValues, List.filterMap_cons, hexp]
    | clientAck r =>
      have hexp : (ackStep es s (.clientAck r)).expectedServerCount
          = s.expectedServerCount := by
        simp [ackStep, checkCompleteness_expected]
      simp [serverCountValues, List.filterMap_cons, hexp]
    | timerFire =>
      have hexp : (ackStep es s .timerFire).expectedServerCount
          = s.expectedServerCount := by
        simp only [ackStep]
        split <;> rfl
      simp [serverCountValues, List.filterMap_cons, hexp]

/-- What `checkCompleteness` appends to the invocation trace. -/
lemma checkCompleteness_calls (es : Bool) (s : AckState) :
    (checkCompleteness es s).calls
      = if ackComplete s
        then s.calls ++ [.ok (successPayload es s.responses)]
        else s.calls := by
  unfold checkCompleteness
  by_cases h : ackComplete s
  · rw [if_pos h, if_pos h]
  · rw [if_neg h, if_neg h]

/-- The completeness guard is untouched by `checkCompleteness` itself. -/
lemma ackComplete_checkCompleteness (es : Bool) (s : AckState) :
    ackComplete (checkCompleteness es s) ↔ ackComplete s := by
  unfold checkCompleteness
  by_cases h : ackComplete s
  · rw [if_pos h]
    exact ⟨fun _ => h, fun _ => h⟩
  · rw [if_neg h]

/-- A non-timer step appends a success invocation exactly when the resulting
counters satisfy the completeness guard. -/
lemma ackStep_calls_char (es : Bool) (s : AckState) (e : AckEvent)
    (he : e ≠ AckEvent.timerFire) :
    (ackStep es s e).calls
      = if ackComplete (ackStep es s e)
        then s.calls ++ [.ok (successPayload es (ackStep es s e).responses)]
        else s.calls := by
  cases e with
  | timerFire => exact absurd rfl he
  | serverAck n =>
    simp only [ackStep, checkCompleteness_calls, ackComplete_checkCompleteness,
      checkCompleteness_responses]
  | clientAck r =>
    simp only [ackStep, checkCompleteness_calls, ackComplete_checkCompleteness,
      checkCompleteness_responses]
  | serverCountResolved n =>
    simp only [ackStep, checkCompleteness_calls, ackComplete_checkCompleteness,
      checkCompleteness_responses]

/-- What any permutation of the two-server scenario contains. -/
lemma ackScenarioC2_perm_facts (l : List AckEvent)
    (hl : l.Perm ackScenarioC2) :
    (serverAckCounts l).Perm [3, 2]
    ∧ (clientResponses l).Perm [10, 20, 30, 40, 50]
    ∧ serverCountValues l = [2]
    ∧ l.countP AckEvent.isTimerFire = 0
    ∧ l.length = 8
    ∧ (∀ n, AckEvent.serverCountResolved n ∈ l → n = 2)
    ∧ AckEvent.timerFire ∉ l := by
  refine ⟨?_, ?_, ?_, ?_, ?_, ?_, ?_⟩
  · simpa [serverAckCounts, ackScenarioC2] using
      hl.filterMap (fun e => match e with | .serverAck n => some n | _ => none)
  · simpa [clientResponses, ackScenarioC2] using
      hl.filterMap (fun e => match e with | .clientAck r => some r | _ => none)
  · have h : (serverCountValues l).Perm (serverCountValues ackScenarioC2) :=
      hl.filterMap _
    have h2 : serverCountValues ackScenarioC2 = [2] := rfl
    rw [h2] at h
    exact List.perm_singleton.mp h
  · have h := hl.countP_eq AckEvent.isTimerFire
    simpa [ackScenarioC2, AckEvent.isTimerFire] using h
  · simpa [ackScenarioC2] using hl.length_eq
  · intro n hn
    have := hl.subset hn
    simp only [ackScenarioC2, List.mem_cons, List.mem_singleton] at this
    rcases this with h | h | h | h | h | h | h | h <;> simp_all
  · intro hmem
    have := hl.subset hmem
    simp [ackScenarioC2] at this

/-- Every event is of exactly one of the four kinds. -/
lemma ackEvent_length_partition (l : List AckEvent) :
    l.length = (serverAckCounts l).length + (clientResponses l).length
      + (serverCountValues l).length + l.countP AckEvent.isTimerFire := by
  induction l with
  | nil => rfl
  | cons e t ih =>
    cases e <;>
      simp [serverAckCounts, clientResponses, serverCountValues,
        List.countP_cons, AckEvent.isTimerFire, List.filterMap_cons, ih] <;>
      omega

/-- In a permutation of the two-server scenario, the completeness guard fails
strictly before the last event: every proper prefix of the interleaving lacks
either a server report, the cluster-size resolution, or some response. -/
lemma not_ackComplete_of_proper_prefix (l p : List AckEvent)
    (hl : l.Perm ackScenarioC2) (hp : p <+: l) (hne : p ≠ l) :
    ¬ ackComplete (ackRun false initAckState p) := by
  obtain ⟨hsa, hcr, hsv, htf, hlen8, hall2, hnotf⟩ :=
    ackScenarioC2_perm_facts l hl
  intro hc
  obtain ⟨hto, hexp, hresp⟩ := hc
  have hsub := hp.sublist
  have hact : (ackRun false initAckState p).actualServerCount
      = (serverAckCounts p).length := by
    rw [ackRun_actual]; simp [initAckState]
  have hexpc : (ackRun false initAckState p).expectedClientCount
      = (serverAckCounts p).sum := by
    rw [ackRun_expectedClient]; simp [initAckState]
  have hrespc : (ackRun false initAckState p).responses = clientResponses p := by
    rw [ackRun_responses]; simp [initAckState]
  have hall2p : ∀ n, AckEvent.serverCountResolved n ∈ p → n = 2 :=
    fun n hn => hall2 n (hsub.subset hn)
  have hexpchar := ackRun_expected false initAckState p hall2p
  -- the guard forces the cluster-size resolution to have arrived
  by_cases hsvp : serverCountValues p = []
  · rw [hexpchar, if_pos hsvp, hact] at hexp
    simp only [initAckState] at hexp
    omega
  · rw [hexpchar, if_neg hsvp, hact] at hexp
    -- both server reports have arrived
    have hsap : (serverAckCounts p).Sublist (serverAckCounts l) :=
      hsub.filterMap _
    have hsal_len : (serverAckCounts l).length = 2 := by
      simpa using hsa.length_eq
    have hsap_len : (serverAckCounts p).length = 2 := by omega
    have hsap_eq : serverAckCounts p = serverAckCounts l :=
      hsap.eq_of_length (by omega)
    have hsum : (serverAckCounts p).sum = 5 := by
      rw [hsap_eq]
      simpa using hsa.sum_eq
    -- all five responses have arrived
    have hcrp : (clientResponses p).Sublist (clientResponses l) :=
      hsub.filterMap _
    have hcrl_len : (clientResponses l).length = 5 := by
      simpa using hcr.length_eq
    have hcrp_len : (clientResponses p).length = 5 := by
      rw [hrespc, hexpc, hsum] at hresp
      exact hresp
    -- the resolution arrived exactly once, and there is no timer event
    have hsvp_sub : (serverCountValues p).Sublist [2] := hsv ▸ hsub.filterMap _
    have hsvp_eq : serverCountValues p = [2] := by
      rcases List.sublist_singleton.mp hsvp_sub with h | h
      · exact absurd h hsvp
      · exact h
    have htfp : p.countP AckEvent.isTimerFire = 0 := by
      have := hsub.countP_le AckEvent.isTimerFire
      omega
    -- so the prefix already holds all eight events
    have hplen : p.length = 8 := by
      have := ackEvent_length_partition p
      rw [hsap_len, hcrp_len, hsvp_eq, htfp] at this
      simpa using this
    exact hne (hsub.eq_of_length (by omega))

/-- No proper prefix of an interleaving of the two-server scenario has
invoked the callback. -/
lemma ackRun_no_early_call (l : List AckEvent) (hl : l.Perm ackScenarioC2) :
    ∀ p, p <+: l → p ≠ l → (ackRun false initAckState p).calls = [] := by
  intro p
  induction p using List.reverseRecOn with
  | nil => intro _ _; rfl
  | append_singleton q e ih =>
    intro hp hne
    have hq_pre : q <+: l := (List.prefix_append q [e]).trans hp
    have hlen : q.length + 1 ≤ l.length := by
      have := hp.length_le
      simpa using this
    have hq_ne : q ≠ l := by
      intro h
      subst h
      omega
    have he_ne : e ≠ AckEvent.timerFire := by
      intro h
      subst h
      exact (ackScenarioC2_perm_facts l hl).2.2.2.2.2.2
        (hp.sublist.subset (by simp))
    rw [ackRun_concat, ackStep_calls_char _ _ _ he_ne, ih hq_pre hq_ne]
    rw [if_neg ?_]
    rw [← ackRun_concat]
    exact not_ackComplete_of_proper_prefix l (q ++ [e]) hl hp hne

/-- The whole interleaving satisfies the completeness guard. -/
lemma ackComplete_of_perm (l : List AckEvent) (hl : l.Perm ackScenarioC2) :
    ackComplete (ackRun false initAckState l) := by
  obtain ⟨hsa, hcr, hsv, htf, hlen8, hall2, hnotf⟩ :=
    ackScenarioC2_perm_facts l hl
  refine ⟨?_, ?_, ?_⟩
  · rw [ackRun_timedOut _ _ _ hnotf]
    rfl
  · rw [ackRun_expected _ _ _ hall2, ackRun_actual, hsv]
    have : (serverAckCounts l).length = 2 := by simpa using hsa.length_eq
    simp [initAckState, this]
  · rw [ackRun_responses, ackRun_expectedClient]
    have h1 : (clientResponses l).length = 5 := by simpa using hcr.length_eq
    have h2 : (serverAckCounts l).sum = 5 := by simpa using hsa.sum_eq
    simp [initAckState, h1, h2]

/-- Claim C2: for two cooperating processes reporting 3 and 2 matching
clients, with the cluster size resolving to 2 and the five acknowledgments
arriving in any interleaving, the callback fires exactly once, with
`(null, responses)` carrying all five responses, and only at the final event
— every proper prefix of the interleaving has made no invocation, and the
final counters satisfy `expectedServerCount = actualServerCount = 2` and
`responses.length = expectedClientCount = 5`. -/
theorem ack_aggregation_C2 (l : List AckEvent) (hl : l.Perm ackScenarioC2) :
    (ackRun false initAckState l).calls
        = [AckCall.ok (AckPayload.arr (clientResponses l))]
    ∧ (clientResponses l).Perm [10, 20, 30, 40, 50]
    ∧ (ackRun false initAckState l).actualServerCount = 2
    ∧ (ackRun false initAckState l).expectedServerCount = 2
    ∧ (ackRun false initAckState l).expectedClientCount = 5
    ∧ (ackRun false initAckState l).responses = clientResponses l
    ∧ (∀ p, p <+: l → p ≠ l →
        (ackRun false initAckState p).calls = []) := by
  obtain ⟨hsa, hcr, hsv, htf, hlen8, hall2, hnotf⟩ :=
    ackScenarioC2_perm_facts l hl
  have hsa_len : (serverAckCounts l).length = 2 := by simpa using hsa.length_eq
  have hsa_sum : (serverAckCounts l).sum = 5 := by simpa using hsa.sum_eq
  have hcr_len : (clientResponses l).length = 5 := by simpa using hcr.length_eq
  refine ⟨?_, hcr, ?_, ?_, ?_, ?_, ackRun_no_early_call l hl⟩
  · rcases List.eq_nil_or_concat l with hnil | ⟨q, e, hqe⟩
    · rw [hnil] at hlen8
      simp at hlen8
    · rw [List.concat_eq_append] at hqe
      subst hqe
      have he_ne : e ≠ AckEvent.timerFire := by
        intro h
        subst h
        exact hnotf (by simp)
      have hq_calls : (ackRun false initAckState q).calls = [] :=
        ackRun_no_early_call _ hl q (List.prefix_append q [e])
          (by intro h; have := congrArg List.length h; simp at this)
      rw [ackRun_concat, ackStep_calls_char _ _ _ he_ne, hq_calls,
        ← ackRun_concat, if_pos (ackComplete_of_perm _ hl)]
      rw [ackRun_responses]
      simp [initAckState, successPayload]
  · rw [ackRun_actual]
    simp [initAckState, hsa_len]
  · rw [ackRun_expected _ _ _ hall2, hsv]
    simp
  · rw [ackRun_expectedClient]
    simp [initAckState, hsa_sum]
  · rw [ackRun_responses]
    simp [initAckState]

/-- Witness for claim C2: the reference order and a genuinely interleaved
order both make exactly one `(null, [10, 20, 30, 40, 50])` invocation. -/
theorem ack_aggregation_C2_witness :
    (ackRun false initAckState ackScenarioC2).calls
      = [AckCall.ok (AckPayload.arr [10, 20, 30, 40, 50])]
    ∧ (ackRun false initAckState
        [.clientAck 10, .serverAck 3, .serverCountResolved 2, .clientAck 20,
         .clientAck 30, .serverAck 2, .clientAck 40, .clientAck 50]).calls
      = [AckCall.ok (AckPayload.arr [10, 20, 30, 40, 50])] := by
  constructor
  · have h := (ack_aggregation_C2 ackScenarioC2 (List.Perm.refl _)).1
    simpa using h
  · have h := (ack_aggregation_C2
      [.clientAck 10, .serverAck 3, .serverCountResolved 2, .clientAck 20,
       .clientAck 30, .serverAck 2, .clientAck 40, .clientAck 50]
      (by decide)).1
    simpa using h
